import Mathlib

/-!
Shallow embedding of the per-frame simulation core of the strange-universe
repository: the projectile integrator, the pairwise sphere collision
resolver, the ground-contact clause, the toroidal wrap, the teleportation
state machine of both the paired-wormhole mode and the multi-portal mode,
and the character movement and camera height computation.  Coordinates are
real numbers; the vector operations follow the THREE.js semantics used by
the source (in particular, normalize divides by the length or by one when
the length is zero).
-/

namespace StrangeUniverse

open scoped Classical

noncomputable section

/-- A 3D vector with real components, mirroring THREE.Vector3. -/
@[ext]
structure Vec3 where
  x : ℝ
  y : ℝ
  z : ℝ

instance : Inhabited Vec3 := ⟨⟨0, 0, 0⟩⟩

instance : Add Vec3 := ⟨fun a b => ⟨a.x + b.x, a.y + b.y, a.z + b.z⟩⟩

instance : Sub Vec3 := ⟨fun a b => ⟨a.x - b.x, a.y - b.y, a.z - b.z⟩⟩

instance : SMul ℝ Vec3 := ⟨fun c v => ⟨c * v.x, c * v.y, c * v.z⟩⟩

@[simp] theorem Vec3.add_x (a b : Vec3) : (a + b).x = a.x + b.x := rfl

@[simp] theorem Vec3.add_y (a b : Vec3) : (a + b).y = a.y + b.y := rfl

@[simp] theorem Vec3.add_z (a b : Vec3) : (a + b).z = a.z + b.z := rfl

@[simp] theorem Vec3.sub_x (a b : Vec3) : (a - b).x = a.x - b.x := rfl

@[simp] theorem Vec3.sub_y (a b : Vec3) : (a - b).y = a.y - b.y := rfl

@[simp] theorem Vec3.sub_z (a b : Vec3) : (a - b).z = a.z - b.z := rfl

@[simp] theorem Vec3.smul_x (c : ℝ) (v : Vec3) : (c • v).x = c * v.x := rfl

@[simp] theorem Vec3.smul_y (c : ℝ) (v : Vec3) : (c • v).y = c * v.y := rfl

@[simp] theorem Vec3.smul_z (c : ℝ) (v : Vec3) : (c • v).z = c * v.z := rfl

/-- Dot product, as THREE.Vector3.dot. -/
def Vec3.dot (a b : Vec3) : ℝ := a.x * b.x + a.y * b.y + a.z * b.z

/-- Euclidean length, as THREE.Vector3.length. -/
def Vec3.length (v : Vec3) : ℝ := Real.sqrt (v.x * v.x + v.y * v.y + v.z * v.z)

/-- Distance between two points, as THREE.Vector3.distanceTo. -/
def Vec3.distanceTo (a b : Vec3) : ℝ := (a - b).length

/-- Cross product, as THREE.Vector3.crossVectors. -/
def Vec3.cross (a b : Vec3) : Vec3 :=
  ⟨a.y * b.z - a.z * b.y, a.z * b.x - a.x * b.z, a.x * b.y - a.y * b.x⟩

/-- Normalization with the THREE.js semantics: divideScalar by the length,
or by one when the length is zero, so the zero vector maps to itself. -/
def Vec3.normalizeTHREE (v : Vec3) : Vec3 :=
  if v.length = 0 then v else (1 / v.length) • v

/-- A thrown projectile: mesh position, velocity, sphere radius and the
teleport-eligibility flag, mirroring the ThrownObject record plus the
radius stored in the sphere geometry. -/
structure Obj where
  pos : Vec3
  vel : Vec3
  radius : ℝ
  canTeleport : Bool

instance : Inhabited Obj := ⟨⟨default, default, 0, false⟩⟩

/-- Resolution of a single overlapping pair, translated from the collision
block shared by UniverseCanvas.tsx (lines 491-513) and part_001 (lines
513-537); k is the impulse multiplier (1.8 in the former, 1 in the
latter). -/
def resolveTwo (k : ℝ) (o1 o2 : Obj) : Obj × Obj :=
  let distVec := o1.pos - o2.pos
  let dist := distVec.length
  let radiiSum := o1.radius + o2.radius
  if dist < radiiSum then
    let overlap := radiiSum - dist
    let separationVec := (overlap * 0.5) • distVec.normalizeTHREE
    let p1 := o1.pos + separationVec
    let p2 := o2.pos - separationVec
    let normal := distVec.normalizeTHREE
    let vRel := o1.vel - o2.vel
    let speed := vRel.dot normal
    if speed < 0 then
      let impulse := -speed * k
      ({ o1 with pos := p1, vel := o1.vel + impulse • normal },
       { o2 with pos := p2, vel := o2.vel - impulse • normal })
    else
      ({ o1 with pos := p1 }, { o2 with pos := p2 })
  else (o1, o2)

/-- One iteration of the nested pair loop: resolve the objects at indices
i and j of the list in place. -/
def resolvePairAt (k : ℝ) (objs : List Obj) (ij : Nat × Nat) : List Obj :=
  match objs[ij.1]?, objs[ij.2]? with
  | some o1, some o2 =>
      let r := resolveTwo k o1 o2
      (objs.set ij.1 r.1).set ij.2 r.2
  | _, _ => objs

/-- The ascending index pairs (i, j) with i < j < n, in the order the
nested for loops of the source visit them. -/
def pairsUpTo (n : Nat) : List (Nat × Nat) :=
  (List.range n).flatMap fun i => (List.range (n - i - 1)).map fun t => (i, i + 1 + t)

/-- One full resolution pass over all pairs, as the nested loops of the
collision block. -/
def resolvePass (k : ℝ) (objs : List Obj) : List Obj :=
  (pairsUpTo objs.length).foldl (resolvePairAt k) objs

/-- The universe modes of the repository: the tunnel, the paired-wormhole
world of part_001, and the multi-portal and toroidal worlds of
UniverseCanvas.tsx. -/
inductive Mode where
  | wormhole : Mode
  | myWormholes : Mode
  | portals : Mode
  | infinity : Mode
deriving DecidableEq

/-- The impulse multiplier applied by the collision block of the mode:
part_001 (mode myWormholes) uses impulse = -speed, while the shared
portals/infinity block of UniverseCanvas.tsx uses impulse = -speed * 1.8.
The tunnel mode runs no collision block; its value is the neutral 1. -/
def impulseFactor : Mode → ℝ
  | Mode.myWormholes => 1
  | Mode.portals => 1.8
  | Mode.infinity => 1.8
  | Mode.wormhole => 1

/-- The projectile integration step shared by part_001 (lines 453-460) and
the portals branch of UniverseCanvas.tsx (lines 470-476): add gravity to
the velocity only while the center height exceeds ground plus radius, then
add the velocity to the position. -/
def projIntegrate (ground : ℝ) (grav : Vec3) (o : Obj) : Obj :=
  let v := if o.pos.y > ground + o.radius then o.vel + grav else o.vel
  { o with vel := v, pos := o.pos + v }

/-- The gravity increment of both source files. -/
def gravityVec : Vec3 := ⟨0, -0.01, 0⟩

/-- Ground contact clause of the portals branch of UniverseCanvas.tsx
(lines 477-481): clamp the height, reflect and damp the vertical velocity
by -0.3 and snap it to zero below 0.05; the horizontal velocity is not
touched. -/
def groundContactPortals (ground : ℝ) (o : Obj) : Obj :=
  if o.pos.y < ground + o.radius then
    let vy1 := o.vel.y * (-0.3)
    let vy2 := if |vy1| < 0.05 then 0 else vy1
    { o with pos := ⟨o.pos.x, ground + o.radius, o.pos.z⟩,
             vel := ⟨o.vel.x, vy2, o.vel.z⟩ }
  else o

/-- Ground contact clause of part_001 (lines 479-487): as the portals one
but with the horizontal velocity damped by 0.8 on each axis. -/
def groundContactPaired (ground : ℝ) (o : Obj) : Obj :=
  if o.pos.y < ground + o.radius then
    let vy1 := o.vel.y * (-0.3)
    let vy2 := if |vy1| < 0.05 then 0 else vy1
    { o with pos := ⟨o.pos.x, ground + o.radius, o.pos.z⟩,
             vel := ⟨o.vel.x * 0.8, vy2, o.vel.z * 0.8⟩ }
  else o

/-- The per-axis boundary treatment of the infinity mode (UniverseCanvas.tsx
lines 391-400 and 515-521): two sequential ifs that snap a coordinate past
either half-world edge to the opposite edge. -/
def wrapCoord (half : ℝ) (x0 : ℝ) : ℝ :=
  let x1 := if x0 > half then -half else x0
  if x1 < -half then half else x1

/-- The wrap applied to a position: x and z are wrapped, y is left alone. -/
def wrapXZ (half : ℝ) (v : Vec3) : Vec3 :=
  ⟨wrapCoord half v.x, v.y, wrapCoord half v.z⟩

/-- The head offset added to the character position before every teleport
proximity test. -/
def headOffset : Vec3 := ⟨0, 1.5, 0⟩

/-- The character teleport machine of the paired mode, part_001 lines
431-446: enP and exP are the entrance and exit positions, t the teleport
threshold (3.5 in the source).  Returns the new position and the new
cooldown flag. -/
def charTeleStepPaired (enP exP : Vec3) (t : ℝ) (pos : Vec3) (cool : Bool) :
    Vec3 × Bool :=
  let head := pos + headOffset
  if cool then
    if head.distanceTo enP > t + 1 ∧ head.distanceTo exP > t + 1 then
      (pos, false)
    else (pos, true)
  else
    if head.distanceTo enP < t then (⟨exP.x, pos.y, exP.z⟩, true)
    else if head.distanceTo exP < t then (⟨enP.x, pos.y, enP.z⟩, true)
    else (pos, false)

/-- The projectile teleport machine of the paired mode, part_001 lines
489-503: an armed projectile within the threshold of an endpoint is moved
to the opposite endpoint plus its own velocity and disarmed; a cooling one
re-arms only once it is farther than t + 1 from both endpoints. -/
def projTeleStepPaired (enP exP : Vec3) (t : ℝ) (o : Obj) : Obj :=
  let dE := o.pos.distanceTo enP
  let dX := o.pos.distanceTo exP
  if o.canTeleport then
    if dE < t then { o with pos := exP + o.vel, canTeleport := false }
    else if dX < t then { o with pos := enP + o.vel, canTeleport := false }
    else o
  else
    if dE > t + 1 ∧ dX > t + 1 then { o with canTeleport := true } else o

/-- First portal of the list whose distance to p is below t, in
registration order, as the for loop with break of the portals mode. -/
def firstWithin (t : ℝ) (p : Vec3) : List Vec3 → Option Vec3
  | [] => none
  | q :: qs => if p.distanceTo q < t then some q else firstWithin t p qs

/-- True when p is farther than t + 1 from every portal of the list, as
the clearOfAllPortals loop of the portals mode. -/
def allFar (t : ℝ) (p : Vec3) : List Vec3 → Bool
  | [] => true
  | q :: qs => if p.distanceTo q ≤ t + 1 then false else allFar t p qs

/-- The character teleport machine of the multi-portal mode,
UniverseCanvas.tsx lines 407-437, including the enclosing
allPortals.length > 0 guard of line 407: with no portals placed the whole
block is skipped and position and cooldown are left untouched.  pickX and
pickE stand for the random indices Math.floor(Math.random() * length)
used to select the target portal; the emerge offset is the fixed vector
(0, 0, 1). -/
def charTelePortals (entrances exits : List Vec3) (pickE pickX : Nat)
    (t : ℝ) (pos : Vec3) (cool : Bool) : Vec3 × Bool :=
  if entrances ++ exits = [] then (pos, cool)
  else
    let head := pos + headOffset
    if cool then
      if allFar t head (entrances ++ exits) then (pos, false) else (pos, true)
    else
      match (if exits ≠ [] then firstWithin t head entrances else none) with
      | some _ => (exits.getD pickX default + ⟨0, 0, 1⟩, true)
      | none =>
        match (if entrances ≠ [] then firstWithin t head exits else none) with
        | some _ => (entrances.getD pickE default + ⟨0, 0, 1⟩, true)
        | none => (pos, false)

/-- The projectile teleport machine of the multi-portal mode,
UniverseCanvas.tsx lines 438-467, under the same allPortals.length > 0
guard of line 407: an armed projectile within the threshold of a portal
is moved to a selected opposite-role portal plus the fixed (0, 0, 1)
offset and disarmed; a cooling one re-arms only once it is farther than
t + 1 from every portal of both roles.  The proximity test uses the
projectile center directly, with no head offset. -/
def projTelePortals (entrances exits : List Vec3) (pickE pickX : Nat)
    (t : ℝ) (o : Obj) : Obj :=
  if entrances ++ exits = [] then o
  else if o.canTeleport then
    match (if exits ≠ [] then firstWithin t o.pos entrances else none) with
    | some _ =>
        { o with pos := exits.getD pickX default + ⟨0, 0, 1⟩, canTeleport := false }
    | none =>
      match (if entrances ≠ [] then firstWithin t o.pos exits else none) with
      | some _ =>
          { o with pos := entrances.getD pickE default + ⟨0, 0, 1⟩, canTeleport := false }
      | none => o
  else
    if allFar t o.pos (entrances ++ exits) then { o with canTeleport := true } else o

/-- The cooldown flag carried through a run of consecutive character
teleport steps of the paired mode, one head position per frame. -/
def charCoolRun (enP exP : Vec3) (t : ℝ) (ps : List Vec3) (b : Bool) : Bool :=
  ps.foldl (fun c p => (charTeleStepPaired enP exP t p c).2) b

/-- The cooldown flag carried through a run of consecutive character
teleport steps of the multi-portal mode, one head position per frame. -/
def charCoolRunPortals (entrances exits : List Vec3) (pickE pickX : Nat)
    (t : ℝ) (ps : List Vec3) (b : Bool) : Bool :=
  ps.foldl (fun c p => (charTelePortals entrances exits pickE pickX t p c).2) b

/-- The teleport-eligibility flag carried through a run of consecutive
projectile teleport steps of the multi-portal mode, one physics state per
frame. -/
def projCoolRunPortals (entrances exits : List Vec3) (pickE pickX : Nat)
    (t : ℝ) (os : List Obj) (b : Bool) : Bool :=
  os.foldl
    (fun c o =>
      (projTelePortals entrances exits pickE pickX t { o with canTeleport := c }).canTeleport)
    b

/-- The held movement keys consumed by the character integrator. -/
structure Keys where
  w : Bool
  a : Bool
  s : Bool
  d : Bool
  shift : Bool
  ctrl : Bool

/-- The character movement of UniverseCanvas.tsx lines 363-386: camera
direction flattened and normalized outside infinity mode, strafe from the
cross product with the vertical axis, one fixed displacement per held key,
vertical shift and control movement only in infinity mode. -/
def moveChar (isInf : Bool) (camDir : Vec3) (keys : Keys) (moveSpeed : ℝ)
    (pos : Vec3) : Vec3 :=
  let dir := if isInf then camDir else Vec3.normalizeTHREE ⟨camDir.x, 0, camDir.z⟩
  let strafe := (Vec3.cross ⟨0, 1, 0⟩ dir).normalizeTHREE
  let p1 := if keys.w then pos + moveSpeed • dir else pos
  let p2 := if keys.s then p1 + (-moveSpeed) • dir else p1
  let p3 := if keys.a then p2 + moveSpeed • strafe else p2
  let p4 := if keys.d then p3 + (-moveSpeed) • strafe else p3
  let p5 := if isInf && keys.shift then ⟨p4.x, p4.y + moveSpeed, p4.z⟩ else p4
  if isInf && keys.ctrl then ⟨p5.x, p5.y - moveSpeed, p5.z⟩ else p5

/-- The camera height of the portals mode, UniverseCanvas.tsx lines
533-544: the look-at point is the character position raised by 1.5, the
offset height is distance times the sine of the pitch, and the result is
clamped from below at 1. -/
def cameraYPortals (pos : Vec3) (distance rotX : ℝ) : ℝ :=
  max (pos.y + 1.5 + distance * Real.sin rotX) 1

/-! Helper lemmas about the vector operations. -/

theorem Vec3.length_nonneg (v : Vec3) : 0 ≤ v.length := Real.sqrt_nonneg _

theorem Vec3.length_eval (v : Vec3) (c : ℝ) (hc : 0 ≤ c)
    (h : v.x * v.x + v.y * v.y + v.z * v.z = c * c) : v.length = c := by
  unfold Vec3.length
  rw [h, Real.sqrt_mul_self hc]

theorem Vec3.distance_eval (a b : Vec3) (c : ℝ) (hc : 0 ≤ c)
    (h : (a.x - b.x) * (a.x - b.x) + (a.y - b.y) * (a.y - b.y) +
      (a.z - b.z) * (a.z - b.z) = c * c) : a.distanceTo b = c := by
  unfold Vec3.distanceTo
  exact Vec3.length_eval _ c hc h

theorem Vec3.length_eq_zero_iff (v : Vec3) : v.length = 0 ↔ v = ⟨0, 0, 0⟩ := by
  obtain ⟨x, y, z⟩ := v
  unfold Vec3.length
  rw [show x * x + y * y + z * z = x ^ 2 + y ^ 2 + z ^ 2 by ring,
    Real.sqrt_eq_zero (by positivity)]
  constructor
  · intro h
    have hx : x = 0 := by nlinarith [sq_nonneg x, sq_nonneg y, sq_nonneg z]
    have hy : y = 0 := by nlinarith [sq_nonneg x, sq_nonneg y, sq_nonneg z]
    have hz : z = 0 := by nlinarith [sq_nonneg x, sq_nonneg y, sq_nonneg z]
    simp [hx, hy, hz]
  · intro h
    rw [show x = 0 by exact congrArg Vec3.x h, show y = 0 by exact congrArg Vec3.y h,
      show z = 0 by exact congrArg Vec3.z h]
    ring

theorem Vec3.sub_eq_zero_iff (a b : Vec3) : a - b = ⟨0, 0, 0⟩ ↔ a = b := by
  constructor
  · intro h
    have hx := congrArg Vec3.x h
    have hy := congrArg Vec3.y h
    have hz := congrArg Vec3.z h
    simp only [Vec3.sub_x, Vec3.sub_y, Vec3.sub_z] at hx hy hz
    ext
    · linarith
    · linarith
    · linarith
  · intro h
    rw [h]
    ext <;> simp

theorem Vec3.length_smul (c : ℝ) (v : Vec3) : (c • v).length = |c| * v.length := by
  unfold Vec3.length
  simp only [Vec3.smul_x, Vec3.smul_y, Vec3.smul_z]
  rw [show c * v.x * (c * v.x) + c * v.y * (c * v.y) + c * v.z * (c * v.z)
      = (c * c) * (v.x * v.x + v.y * v.y + v.z * v.z) by ring,
    Real.sqrt_mul (mul_self_nonneg c), Real.sqrt_mul_self_eq_abs]

/-! Helper lemmas unfolding the collision resolver. -/

theorem resolveTwo_far (k : ℝ) (o1 o2 : Obj)
    (h : ¬ (o1.pos - o2.pos).length < o1.radius + o2.radius) :
    resolveTwo k o1 o2 = (o1, o2) := by
  simp only [resolveTwo]
  rw [if_neg h]

theorem resolveTwo_overlap_pos (k : ℝ) (o1 o2 : Obj)
    (hlt : (o1.pos - o2.pos).length < o1.radius + o2.radius) :
    (resolveTwo k o1 o2).1.pos
      = o1.pos + ((o1.radius + o2.radius - (o1.pos - o2.pos).length) * 0.5) •
          (o1.pos - o2.pos).normalizeTHREE
    ∧ (resolveTwo k o1 o2).2.pos
      = o2.pos - ((o1.radius + o2.radius - (o1.pos - o2.pos).length) * 0.5) •
          (o1.pos - o2.pos).normalizeTHREE
    ∧ (resolveTwo k o1 o2).1.radius = o1.radius
    ∧ (resolveTwo k o1 o2).2.radius = o2.radius := by
  simp only [resolveTwo]
  rw [if_pos hlt]
  split_ifs <;> simp

theorem resolveTwo_separates (k : ℝ) (o1 o2 : Obj) (hne : o1.pos ≠ o2.pos)
    (hlt : (o1.pos - o2.pos).length < o1.radius + o2.radius) :
    (resolveTwo k o1 o2).1.pos.distanceTo (resolveTwo k o1 o2).2.pos
      = o1.radius + o2.radius := by
  have hw : o1.pos - o2.pos ≠ ⟨0, 0, 0⟩ :=
    fun h => hne ((Vec3.sub_eq_zero_iff _ _).mp h)
  have hd0 : (o1.pos - o2.pos).length ≠ 0 :=
    fun h => hw ((Vec3.length_eq_zero_iff _).mp h)
  have hdpos : 0 < (o1.pos - o2.pos).length :=
    lt_of_le_of_ne (Vec3.length_nonneg _) (Ne.symm hd0)
  have hrs : 0 < o1.radius + o2.radius := lt_trans hdpos hlt
  obtain ⟨h1, h2, _, _⟩ := resolveTwo_overlap_pos k o1 o2 hlt
  have hn : (o1.pos - o2.pos).normalizeTHREE
      = (1 / (o1.pos - o2.pos).length) • (o1.pos - o2.pos) := by
    unfold Vec3.normalizeTHREE
    rw [if_neg hd0]
  rw [h1, h2, hn]
  have hdiff :
      (o1.pos + ((o1.radius + o2.radius - (o1.pos - o2.pos).length) * 0.5) •
          ((1 / (o1.pos - o2.pos).length) • (o1.pos - o2.pos)))
        - (o2.pos - ((o1.radius + o2.radius - (o1.pos - o2.pos).length) * 0.5) •
          ((1 / (o1.pos - o2.pos).length) • (o1.pos - o2.pos)))
      = ((o1.radius + o2.radius) / (o1.pos - o2.pos).length) • (o1.pos - o2.pos) := by
    ext
    · simp only [Vec3.add_x, Vec3.sub_x, Vec3.smul_x]
      field_simp
      ring
    · simp only [Vec3.add_y, Vec3.sub_y, Vec3.smul_y]
      field_simp
      ring
    · simp only [Vec3.add_z, Vec3.sub_z, Vec3.smul_z]
      field_simp
      ring
  unfold Vec3.distanceTo
  rw [hdiff, Vec3.length_smul, abs_of_pos (div_pos hrs hdpos)]
  field_simp

theorem length_xaxis_lt (x1 x2 y z : ℝ) (hx : x1 < x2) :
    (Vec3.mk x1 y z - Vec3.mk x2 y z).length = x2 - x1 := by
  apply Vec3.length_eval _ _ (by linarith)
  simp only [Vec3.sub_x, Vec3.sub_y, Vec3.sub_z]
  ring

theorem normalize_xaxis_lt (x1 x2 y z : ℝ) (hx : x1 < x2) :
    (Vec3.mk x1 y z - Vec3.mk x2 y z).normalizeTHREE = ⟨-1, 0, 0⟩ := by
  have hd := length_xaxis_lt x1 x2 y z hx
  unfold Vec3.normalizeTHREE
  rw [if_neg (by rw [hd]; intro h; linarith), hd]
  have h0 : x2 - x1 ≠ 0 := by intro h; linarith
  ext
  · simp only [Vec3.smul_x, Vec3.sub_x]
    field_simp
  · simp only [Vec3.smul_y, Vec3.sub_y]
    ring
  · simp only [Vec3.smul_z, Vec3.sub_z]
    ring

theorem resolveTwo_xaxis_static (k x1 x2 y z r1 r2 : ℝ) (u : Vec3) (c1 c2 : Bool)
    (hx : x1 < x2) (hlt : x2 - x1 < r1 + r2) :
    resolveTwo k ⟨⟨x1, y, z⟩, u, r1, c1⟩ ⟨⟨x2, y, z⟩, u, r2, c2⟩ =
      (⟨⟨x1 - (r1 + r2 - (x2 - x1)) * 0.5, y, z⟩, u, r1, c1⟩,
       ⟨⟨x2 + (r1 + r2 - (x2 - x1)) * 0.5, y, z⟩, u, r2, c2⟩) := by
  have hd := length_xaxis_lt x1 x2 y z hx
  have hn := normalize_xaxis_lt x1 x2 y z hx
  simp only [resolveTwo, hd, hn]
  rw [if_pos (by simpa using hlt)]
  rw [if_neg (by simp [Vec3.dot])]
  simp only [Prod.mk.injEq, Obj.mk.injEq, and_true, true_and]
  refine ⟨?_, ?_⟩ <;> ext <;> simp <;> ring

theorem resolveTwo_xaxis_vel (k x1 x2 y z r1 r2 u1 u2 : ℝ) (c1 c2 : Bool)
    (hx : x1 < x2) (hlt : x2 - x1 < r1 + r2) (happ : u2 < u1) :
    resolveTwo k ⟨⟨x1, y, z⟩, ⟨u1, 0, 0⟩, r1, c1⟩ ⟨⟨x2, y, z⟩, ⟨u2, 0, 0⟩, r2, c2⟩ =
      (⟨⟨x1 - (r1 + r2 - (x2 - x1)) * 0.5, y, z⟩, ⟨u1 - (u1 - u2) * k, 0, 0⟩, r1, c1⟩,
       ⟨⟨x2 + (r1 + r2 - (x2 - x1)) * 0.5, y, z⟩, ⟨u2 + (u1 - u2) * k, 0, 0⟩, r2, c2⟩) := by
  have hd := length_xaxis_lt x1 x2 y z hx
  have hn := normalize_xaxis_lt x1 x2 y z hx
  simp only [resolveTwo, hd, hn]
  rw [if_pos (by simpa using hlt)]
  rw [if_pos (by simp [Vec3.dot]; linarith)]
  simp only [Prod.mk.injEq, Obj.mk.injEq, and_true, true_and]
  refine ⟨⟨?_, ?_⟩, ⟨?_, ?_⟩⟩ <;> ext <;> simp [Vec3.dot] <;> ring

/-! Helper lemmas unfolding the pass over concrete short lists. -/

theorem resolvePairAt_two (k : ℝ) (a b : Obj) :
    resolvePairAt k [a, b] (0, 1) = [(resolveTwo k a b).1, (resolveTwo k a b).2] := by
  simp [resolvePairAt]

theorem resolvePass_two (k : ℝ) (a b : Obj) :
    resolvePass k [a, b] = [(resolveTwo k a b).1, (resolveTwo k a b).2] := by
  have hp : pairsUpTo 2 = [(0, 1)] := by decide
  simp [resolvePass, hp, resolvePairAt_two]

theorem resolvePairAt_three01 (k : ℝ) (a b c : Obj) :
    resolvePairAt k [a, b, c] (0, 1) = [(resolveTwo k a b).1, (resolveTwo k a b).2, c] := by
  simp [resolvePairAt]

theorem resolvePairAt_three02 (k : ℝ) (a b c : Obj) :
    resolvePairAt k [a, b, c] (0, 2) = [(resolveTwo k a c).1, b, (resolveTwo k a c).2] := by
  simp [resolvePairAt]

theorem resolvePairAt_three12 (k : ℝ) (a b c : Obj) :
    resolvePairAt k [a, b, c] (1, 2) = [a, (resolveTwo k b c).1, (resolveTwo k b c).2] := by
  simp [resolvePairAt]

theorem resolvePass_three (k : ℝ) (a b c : Obj) :
    resolvePass k [a, b, c]
      = resolvePairAt k (resolvePairAt k (resolvePairAt k [a, b, c] (0, 1)) (0, 2)) (1, 2) := by
  have hp : pairsUpTo 3 = [(0, 1), (0, 2), (1, 2)] := by decide
  simp [resolvePass, hp]

/-- Claim C1 (amended): for every pair of projectiles with distinct centers
whose distance is below the sum of the radii, the resolver moves each
center half the overlap distance apart along the connecting line, leaving
that pair at distance exactly the sum of the radii immediately afterwards;
and one full resolution pass over a list of at most two projectiles leaves
the pair at distance at least the sum of the radii.  (The original global
no-residual-interpenetration guarantee after one pass fails for three or
more projectiles.) -/
theorem C1_pair_separation (k : ℝ) (o1 o2 : Obj) (hne : o1.pos ≠ o2.pos) :
    (o1.pos.distanceTo o2.pos < o1.radius + o2.radius →
      (resolveTwo k o1 o2).1.pos
        = o1.pos + ((o1.radius + o2.radius - o1.pos.distanceTo o2.pos) * 0.5) •
            (o1.pos - o2.pos).normalizeTHREE
      ∧ (resolveTwo k o1 o2).2.pos
        = o2.pos - ((o1.radius + o2.radius - o1.pos.distanceTo o2.pos) * 0.5) •
            (o1.pos - o2.pos).normalizeTHREE
      ∧ (resolveTwo k o1 o2).1.pos.distanceTo ((resolveTwo k o1 o2).2.pos)
        = o1.radius + o2.radius)
    ∧ o1.radius + o2.radius
        ≤ ((resolvePass k [o1, o2]).getD 0 default).pos.distanceTo
            (((resolvePass k [o1, o2]).getD 1 default).pos) := by
  constructor
  · intro hlt
    obtain ⟨h1, h2, _, _⟩ := resolveTwo_overlap_pos k o1 o2 hlt
    exact ⟨h1, h2, resolveTwo_separates k o1 o2 hne hlt⟩
  · rw [resolvePass_two]
    simp only [List.getD, List.getElem?_cons_zero, List.getElem?_cons_succ,
      Option.getD_some]
    by_cases hlt : (o1.pos - o2.pos).length < o1.radius + o2.radius
    · exact le_of_eq (resolveTwo_separates k o1 o2 hne hlt).symm
    · rw [resolveTwo_far k o1 o2 hlt]
      exact not_lt.mp hlt

/-- Witness for C1: a concrete overlapping pair ends a pass at distance at
least the sum of the radii. -/
theorem C1_pair_separation_check :
    (2 : ℝ) ≤ ((resolvePass 1 [(⟨⟨0, 0, 0⟩, ⟨0, 0, 0⟩, 1, false⟩ : Obj),
        ⟨⟨1, 0, 0⟩, ⟨0, 0, 0⟩, 1, false⟩]).getD 0 default).pos.distanceTo
      (((resolvePass 1 [(⟨⟨0, 0, 0⟩, ⟨0, 0, 0⟩, 1, false⟩ : Obj),
        ⟨⟨1, 0, 0⟩, ⟨0, 0, 0⟩, 1, false⟩]).getD 1 default).pos) := by
  have h := (C1_pair_separation 1 ⟨⟨0, 0, 0⟩, ⟨0, 0, 0⟩, 1, false⟩
    ⟨⟨1, 0, 0⟩, ⟨0, 0, 0⟩, 1, false⟩
    (by intro h; exact absurd (congrArg Vec3.x h) (by norm_num))).2
  norm_num at h
  exact h

/-- Counterexample to C1 as stated: three collinear unit projectiles at
x = 0, 1, 2; after one full resolution pass the first two projectiles are
at distance 1.25, strictly below the radii sum 2, so residual
interpenetration remains. -/
theorem C1_cex :
    ((resolvePass 1.8 [(⟨⟨0, 0, 0⟩, ⟨0, 0, 0⟩, 1, false⟩ : Obj),
          ⟨⟨1, 0, 0⟩, ⟨0, 0, 0⟩, 1, false⟩,
          ⟨⟨2, 0, 0⟩, ⟨0, 0, 0⟩, 1, false⟩]).getD 0 default).pos.distanceTo
        (((resolvePass 1.8 [(⟨⟨0, 0, 0⟩, ⟨0, 0, 0⟩, 1, false⟩ : Obj),
          ⟨⟨1, 0, 0⟩, ⟨0, 0, 0⟩, 1, false⟩,
          ⟨⟨2, 0, 0⟩, ⟨0, 0, 0⟩, 1, false⟩]).getD 1 default).pos)
      < ((resolvePass 1.8 [(⟨⟨0, 0, 0⟩, ⟨0, 0, 0⟩, 1, false⟩ : Obj),
          ⟨⟨1, 0, 0⟩, ⟨0, 0, 0⟩, 1, false⟩,
          ⟨⟨2, 0, 0⟩, ⟨0, 0, 0⟩, 1, false⟩]).getD 0 default).radius
        + ((resolvePass 1.8 [(⟨⟨0, 0, 0⟩, ⟨0, 0, 0⟩, 1, false⟩ : Obj),
          ⟨⟨1, 0, 0⟩, ⟨0, 0, 0⟩, 1, false⟩,
          ⟨⟨2, 0, 0⟩, ⟨0, 0, 0⟩, 1, false⟩]).getD 1 default).radius := by
  have e1 : resolveTwo 1.8 ⟨⟨0, 0, 0⟩, ⟨0, 0, 0⟩, 1, false⟩
      ⟨⟨1, 0, 0⟩, ⟨0, 0, 0⟩, 1, false⟩
      = (⟨⟨-0.5, 0, 0⟩, ⟨0, 0, 0⟩, 1, false⟩, ⟨⟨1.5, 0, 0⟩, ⟨0, 0, 0⟩, 1, false⟩) := by
    rw [resolveTwo_xaxis_static 1.8 0 1 0 0 1 1 ⟨0, 0, 0⟩ false false (by norm_num)
      (by norm_num)]
    norm_num
  have e2 : resolveTwo 1.8 (⟨⟨-0.5, 0, 0⟩, ⟨0, 0, 0⟩, 1, false⟩ : Obj)
      ⟨⟨2, 0, 0⟩, ⟨0, 0, 0⟩, 1, false⟩
      = (⟨⟨-0.5, 0, 0⟩, ⟨0, 0, 0⟩, 1, false⟩, ⟨⟨2, 0, 0⟩, ⟨0, 0, 0⟩, 1, false⟩) := by
    apply resolveTwo_far
    rw [show ((⟨⟨-0.5, 0, 0⟩, ⟨0, 0, 0⟩, 1, false⟩ : Obj).pos
        - (⟨⟨2, 0, 0⟩, ⟨0, 0, 0⟩, 1, false⟩ : Obj).pos).length = 2 - (-0.5) from
      length_xaxis_lt (-0.5) 2 0 0 (by norm_num)]
    norm_num
  have e3 : resolveTwo 1.8 (⟨⟨1.5, 0, 0⟩, ⟨0, 0, 0⟩, 1, false⟩ : Obj)
      ⟨⟨2, 0, 0⟩, ⟨0, 0, 0⟩, 1, false⟩
      = (⟨⟨0.75, 0, 0⟩, ⟨0, 0, 0⟩, 1, false⟩, ⟨⟨2.75, 0, 0⟩, ⟨0, 0, 0⟩, 1, false⟩) := by
    rw [resolveTwo_xaxis_static 1.8 1.5 2 0 0 1 1 ⟨0, 0, 0⟩ false false (by norm_num)
      (by norm_num)]
    norm_num
  have hpass : resolvePass 1.8 [(⟨⟨0, 0, 0⟩, ⟨0, 0, 0⟩, 1, false⟩ : Obj),
      ⟨⟨1, 0, 0⟩, ⟨0, 0, 0⟩, 1, false⟩, ⟨⟨2, 0, 0⟩, ⟨0, 0, 0⟩, 1, false⟩]
      = [⟨⟨-0.5, 0, 0⟩, ⟨0, 0, 0⟩, 1, false⟩, ⟨⟨0.75, 0, 0⟩, ⟨0, 0, 0⟩, 1, false⟩,
          ⟨⟨2.75, 0, 0⟩, ⟨0, 0, 0⟩, 1, false⟩] := by
    rw [resolvePass_three, resolvePairAt_three01, e1]
    simp only
    rw [resolvePairAt_three02, e2]
    simp only
    rw [resolvePairAt_three12, e3]
  rw [hpass]
  simp only [List.getD, List.getElem?_cons_zero, List.getElem?_cons_succ,
    Option.getD_some]
  rw [Vec3.distance_eval _ _ 1.25 (by norm_num) (by norm_num)]
  norm_num

/-! Helper lemmas for the teleport machines. -/

theorem charTeleStepPaired_cooling_pos (enP exP : Vec3) (t : ℝ) (pos : Vec3) :
    (charTeleStepPaired enP exP t pos true).1 = pos := by
  simp only [charTeleStepPaired]
  rw [if_pos trivial]
  split_ifs <;> rfl

theorem charTeleStepPaired_cooling_flag (enP exP : Vec3) (t : ℝ) (pos : Vec3) :
    (charTeleStepPaired enP exP t pos true).2 = false ↔
      (pos + headOffset).distanceTo enP > t + 1
        ∧ (pos + headOffset).distanceTo exP > t + 1 := by
  simp only [charTeleStepPaired]
  rw [if_pos trivial]
  split_ifs with h
  · simpa using h
  · simpa using h

theorem allFar_iff (t : ℝ) (p : Vec3) (l : List Vec3) :
    allFar t p l = true ↔ ∀ q ∈ l, p.distanceTo q > t + 1 := by
  induction l with
  | nil => simp [allFar]
  | cons q qs ih =>
    simp only [allFar]
    split_ifs with h
    · simp only [false_iff]
      intro hall
      exact absurd (hall q (List.mem_cons_self q qs)) (not_lt.mpr h)
    · rw [ih]
      constructor
      · intro hall r hr
        rcases List.mem_cons.mp hr with hr | hr
        · rw [hr]; exact lt_of_not_le h
        · exact hall r hr
      · intro hall r hr
        exact hall r (List.mem_cons_of_mem q hr)

theorem charTelePortals_cooling_pos (entrances exits : List Vec3)
    (pickE pickX : Nat) (t : ℝ) (pos : Vec3) :
    (charTelePortals entrances exits pickE pickX t pos true).1 = pos := by
  simp only [charTelePortals]
  by_cases hg : entrances ++ exits = []
  · rw [if_pos hg]
  · rw [if_neg hg, if_pos trivial]
    split_ifs <;> rfl

theorem charTelePortals_cooling_flag (entrances exits : List Vec3)
    (pickE pickX : Nat) (t : ℝ) (pos : Vec3) :
    (charTelePortals entrances exits pickE pickX t pos true).2 = false ↔
      (entrances ++ exits ≠ [] ∧
        ∀ q ∈ entrances ++ exits, (pos + headOffset).distanceTo q > t + 1) := by
  simp only [charTelePortals]
  by_cases hg : entrances ++ exits = []
  · rw [if_pos hg]
    constructor
    · intro hfalse
      simp at hfalse
    · intro hrhs
      exact absurd hg hrhs.1
  · rw [if_neg hg, if_pos trivial]
    split_ifs with h
    · constructor
      · intro _
        exact ⟨hg, (allFar_iff t (pos + headOffset) (entrances ++ exits)).mp h⟩
      · intro _
        rfl
    · constructor
      · intro hfalse
        simp at hfalse
      · intro hrhs
        exact absurd ((allFar_iff t (pos + headOffset) (entrances ++ exits)).mpr hrhs.2) h

theorem projTelePortals_cooling (entrances exits : List Vec3)
    (pickE pickX : Nat) (t : ℝ) (o : Obj) (hcool : o.canTeleport = false) :
    (projTelePortals entrances exits pickE pickX t o).pos = o.pos
    ∧ (projTelePortals entrances exits pickE pickX t o).vel = o.vel
    ∧ ((projTelePortals entrances exits pickE pickX t o).canTeleport = true ↔
        (entrances ++ exits ≠ [] ∧
          ∀ q ∈ entrances ++ exits, o.pos.distanceTo q > t + 1)) := by
  simp only [projTelePortals, hcool]
  by_cases hg : entrances ++ exits = []
  · rw [if_pos hg]
    refine ⟨rfl, rfl, ?_⟩
    rw [hcool]
    constructor
    · intro hfalse
      simp at hfalse
    · intro hrhs
      exact absurd hg hrhs.1
  · rw [if_neg hg, if_neg (by simp)]
    split_ifs with h
    · refine ⟨rfl, rfl, ?_⟩
      constructor
      · intro _
        exact ⟨hg, (allFar_iff t o.pos (entrances ++ exits)).mp h⟩
      · intro _
        rfl
    · refine ⟨rfl, rfl, ?_⟩
      rw [hcool]
      constructor
      · intro hfalse
        simp at hfalse
      · intro hrhs
        exact absurd ((allFar_iff t o.pos (entrances ++ exits)).mpr hrhs.2) h

/-- Claim C2: a cooling entity (character or projectile, paired or
multi-portal mode) is never relocated by the teleport machine and cannot
trigger a teleport on any step while it stays cooling; in the paired mode
it re-arms exactly when its distance to both endpoints exceeds the
threshold plus one, and in the multi-portal mode exactly when portals
exist and it is farther than the threshold plus one from every portal of
both roles (with no portals the guard of the source skips the block and
the cooldown is kept); across consecutive steps whose positions stay
within the band the cooling state is preserved, for the character and the
projectile machines alike. -/
theorem C2_cooling_hysteresis (enP exP : Vec3) (t : ℝ) (pos : Vec3) (o op : Obj)
    (entrances exits : List Vec3) (pickE pickX : Nat)
    (hcool : o.canTeleport = false) (hpcool : op.canTeleport = false) :
    (charTeleStepPaired enP exP t pos true).1 = pos
    ∧ ((charTeleStepPaired enP exP t pos true).2 = false ↔
        (pos + headOffset).distanceTo enP > t + 1
          ∧ (pos + headOffset).distanceTo exP > t + 1)
    ∧ (projTeleStepPaired enP exP t o).pos = o.pos
    ∧ (projTeleStepPaired enP exP t o).vel = o.vel
    ∧ ((projTeleStepPaired enP exP t o).canTeleport = true ↔
        o.pos.distanceTo enP > t + 1 ∧ o.pos.distanceTo exP > t + 1)
    ∧ (∀ ps : List Vec3,
        (∀ p ∈ ps, ¬((p + headOffset).distanceTo enP > t + 1
          ∧ (p + headOffset).distanceTo exP > t + 1)) →
        charCoolRun enP exP t ps true = true)
    ∧ (charTelePortals entrances exits pickE pickX t pos true).1 = pos
    ∧ ((charTelePortals entrances exits pickE pickX t pos true).2 = false ↔
        (entrances ++ exits ≠ [] ∧
          ∀ q ∈ entrances ++ exits, (pos + headOffset).distanceTo q > t + 1))
    ∧ (∀ ps : List Vec3,
        (∀ p ∈ ps, ¬(entrances ++ exits ≠ [] ∧
          ∀ q ∈ entrances ++ exits, (p + headOffset).distanceTo q > t + 1)) →
        charCoolRunPortals entrances exits pickE pickX t ps true = true)
    ∧ (projTelePortals entrances exits pickE pickX t op).pos = op.pos
    ∧ (projTelePortals entrances exits pickE pickX t op).vel = op.vel
    ∧ ((projTelePortals entrances exits pickE pickX t op).canTeleport = true ↔
        (entrances ++ exits ≠ [] ∧
          ∀ q ∈ entrances ++ exits, op.pos.distanceTo q > t + 1))
    ∧ (∀ os : List Obj,
        (∀ ob ∈ os, ¬(entrances ++ exits ≠ [] ∧
          ∀ q ∈ entrances ++ exits, (Obj.pos ob).distanceTo q > t + 1)) →
        projCoolRunPortals entrances exits pickE pickX t os false = false) := by
  refine ⟨charTeleStepPaired_cooling_pos enP exP t pos,
    charTeleStepPaired_cooling_flag enP exP t pos, ?_, ?_, ?_, ?_,
    charTelePortals_cooling_pos entrances exits pickE pickX t pos,
    charTelePortals_cooling_flag entrances exits pickE pickX t pos, ?_,
    (projTelePortals_cooling entrances exits pickE pickX t op hpcool).1,
    (projTelePortals_cooling entrances exits pickE pickX t op hpcool).2.1,
    (projTelePortals_cooling entrances exits pickE pickX t op hpcool).2.2, ?_⟩
  · simp only [projTeleStepPaired, hcool]
    rw [if_neg (by simp)]
    split_ifs <;> rfl
  · simp only [projTeleStepPaired, hcool]
    rw [if_neg (by simp)]
    split_ifs <;> rfl
  · simp only [projTeleStepPaired, hcool]
    rw [if_neg (by simp)]
    split_ifs with h
    · simpa using h
    · rw [hcool]
      simpa using h
  · intro ps hband
    induction ps with
    | nil => rfl
    | cons p ps ih =>
      have hstep : (charTeleStepPaired enP exP t p true).2 = true := by
        rcases Bool.eq_false_or_eq_true (charTeleStepPaired enP exP t p true).2 with h | h
        · exact h
        · exact absurd ((charTeleStepPaired_cooling_flag enP exP t p).mp h)
            (hband p (List.mem_cons_self p ps))
      show charCoolRun enP exP t (p :: ps) true = true
      unfold charCoolRun
      rw [List.foldl_cons, hstep]
      exact ih fun q hq => hband q (List.mem_cons_of_mem p hq)
  · intro ps hband
    induction ps with
    | nil => rfl
    | cons p ps ih =>
      have hstep : (charTelePortals entrances exits pickE pickX t p true).2 = true := by
        rcases Bool.eq_false_or_eq_true
          (charTelePortals entrances exits pickE pickX t p true).2 with h | h
        · exact h
        · exact absurd
            ((charTelePortals_cooling_flag entrances exits pickE pickX t p).mp h)
            (hband p (List.mem_cons_self p ps))
      show charCoolRunPortals entrances exits pickE pickX t (p :: ps) true = true
      unfold charCoolRunPortals
      rw [List.foldl_cons, hstep]
      exact ih fun q hq => hband q (List.mem_cons_of_mem p hq)
  · intro os hband
    induction os with
    | nil => rfl
    | cons ob os ih =>
      have hstep : (projTelePortals entrances exits pickE pickX t
          { ob with canTeleport := false }).canTeleport = false := by
        rcases Bool.eq_false_or_eq_true (projTelePortals entrances exits pickE pickX t
          { ob with canTeleport := false }).canTeleport with h | h
        · exact absurd ((projTelePortals_cooling entrances exits pickE pickX t
              { ob with canTeleport := false } rfl).2.2.mp h)
            (hband ob (List.mem_cons_self ob os))
        · exact h
      show projCoolRunPortals entrances exits pickE pickX t (ob :: os) false = false
      unfold projCoolRunPortals
      rw [List.foldl_cons, hstep]
      exact ih fun q hq => hband q (List.mem_cons_of_mem ob hq)

/-- Witness for C2: a cooling character whose head sits at the entrance
stays in place, stays cooling over a run of steps within the band, and
with no portals placed the multi-portal machine keeps the cooldown set. -/
theorem C2_cooling_hysteresis_check :
    (charTeleStepPaired ⟨0, 5, -25⟩ ⟨20, 5, 20⟩ 3.5 ⟨0, 5, -25⟩ true).1 = ⟨0, 5, -25⟩
    ∧ charCoolRun ⟨0, 5, -25⟩ ⟨20, 5, 20⟩ 3.5 [⟨0, 5, -25⟩, ⟨0, 5, -25⟩] true = true
    ∧ (charTelePortals [] [] 0 0 3.5 ⟨0, 5, -25⟩ true).2 = true := by
  have h := C2_cooling_hysteresis ⟨0, 5, -25⟩ ⟨20, 5, 20⟩ 3.5 ⟨0, 5, -25⟩
    ⟨⟨0, 0, 0⟩, ⟨0, 0, 0⟩, 1, false⟩ ⟨⟨0, 0, 0⟩, ⟨0, 0, 0⟩, 1, false⟩ [] [] 0 0 rfl rfl
  refine ⟨h.1, h.2.2.2.2.2.1 [⟨0, 5, -25⟩, ⟨0, 5, -25⟩] ?_, ?_⟩
  · intro p hp hcontra
    have hdE : (p + headOffset).distanceTo ⟨0, 5, -25⟩ = 1.5 := by
      rcases List.mem_cons.mp hp with hp1 | hp1
      · rw [hp1]
        exact Vec3.distance_eval _ _ 1.5 (by norm_num) (by norm_num [headOffset])
      · rw [List.mem_singleton.mp hp1]
        exact Vec3.distance_eval _ _ 1.5 (by norm_num) (by norm_num [headOffset])
    rw [hdE] at hcontra
    exact absurd hcontra.1 (by norm_num)
  · have hiff := h.2.2.2.2.2.2.2.1
    rcases Bool.eq_false_or_eq_true
      ((charTelePortals [] [] 0 0 3.5 ⟨0, 5, -25⟩ true).2) with h1 | h1
    · exact h1
    · exact absurd (hiff.mp h1).1 (by simp)

/-- Claim C3 (amended): an armed entity within the threshold of an
endpoint is relocated by a single step and set cooling in the same step;
the relocation target is unique per step (the output position is the input
position or exactly one selected target).  In the multi-portal mode the
relocated position is the selected opposite-role portal offset by the
fixed vector (0, 0, 1); in the paired mode the character takes the
opposite endpoint coordinates with no offset (keeping its own height),
contrary to the exit-facing offset of the original claim. -/
theorem C3_single_teleport (entrances exits : List Vec3) (pickE pickX : Nat)
    (t : ℝ) (pos : Vec3) (enP exP : Vec3)
    (hx : exits ≠ [])
    (hhit : (firstWithin t (pos + headOffset) entrances).isSome = true)
    (hpair : (pos + headOffset).distanceTo enP < t) :
    (∀ cool, (charTelePortals entrances exits pickE pickX t pos cool).1 = pos
      ∨ (charTelePortals entrances exits pickE pickX t pos cool).1
          = exits.getD pickX default + ⟨0, 0, 1⟩
      ∨ (charTelePortals entrances exits pickE pickX t pos cool).1
          = entrances.getD pickE default + ⟨0, 0, 1⟩)
    ∧ charTelePortals entrances exits pickE pickX t pos false
        = (exits.getD pickX default + ⟨0, 0, 1⟩, true)
    ∧ charTeleStepPaired enP exP t pos false = (⟨exP.x, pos.y, exP.z⟩, true) := by
  have hg : ¬(entrances ++ exits = []) :=
    fun hg0 => hx (List.append_eq_nil.mp hg0).2
  refine ⟨?_, ?_, ?_⟩
  · intro cool
    by_cases hg1 : entrances ++ exits = []
    · left
      simp only [charTelePortals]
      rw [if_pos hg1]
    · cases cool
      · simp only [charTelePortals]
        rw [if_neg hg1, if_neg (by simp)]
        rcases h1 : (if exits ≠ [] then firstWithin t (pos + headOffset) entrances else none) with _ | q
        · rcases h2 : (if entrances ≠ [] then firstWithin t (pos + headOffset) exits else none) with _ | q
          · left; rfl
          · right; right; rfl
        · right; left; rfl
      · simp only [charTelePortals]
        rw [if_neg hg1, if_pos trivial]
        split_ifs <;> exact Or.inl rfl
  · obtain ⟨q, hq⟩ := Option.isSome_iff_exists.mp hhit
    simp only [charTelePortals]
    rw [if_neg hg, if_neg (by simp), if_pos hx, hq]
  · simp only [charTeleStepPaired]
    rw [if_neg (by simp), if_pos hpair]

/-- Witness for C3: a concrete armed character next to the only entrance
portal is relocated to the exit portal offset by (0, 0, 1) and cools. -/
theorem C3_single_teleport_check :
    charTelePortals [⟨0, 5, 0⟩] [⟨10, 2, 0⟩] 0 0 2.5 ⟨0, 3.5, 0⟩ false
      = (⟨10, 2, 1⟩, true) := by
  have hd0 : ((⟨0, 3.5, 0⟩ : Vec3) + headOffset).distanceTo ⟨0, 5, 0⟩ < 2.5 := by
    rw [Vec3.distance_eval _ _ 0 (by norm_num) (by norm_num [headOffset])]
    norm_num
  have hhit : (firstWithin 2.5 ((⟨0, 3.5, 0⟩ : Vec3) + headOffset) [⟨0, 5, 0⟩]).isSome
      = true := by
    simp only [firstWithin]
    rw [if_pos hd0]
    rfl
  have h := (C3_single_teleport [⟨0, 5, 0⟩] [⟨10, 2, 0⟩] 0 0 2.5 ⟨0, 3.5, 0⟩
    ⟨0, 5, 0⟩ ⟨0, 0, 0⟩ (by simp) hhit
    (by rw [Vec3.distance_eval _ _ 0 (by norm_num) (by norm_num [headOffset])]; norm_num)).2.1
  rw [h]
  simp only [List.getD, List.getElem?_cons_zero, Option.getD_some, Prod.mk.injEq]
  constructor
  · ext <;> norm_num
  · trivial

/-- Counterexample to C3 as stated: in the paired mode a character at
height 5 triggering at the entrance is relocated exactly onto the exit
endpoint position (20, 5, 20) with no offset at all, not to the endpoint
offset slightly along an exit-facing direction. -/
theorem C3_cex :
    (charTeleStepPaired ⟨0, 5, -25⟩ ⟨20, 5, 20⟩ 3.5 ⟨0, 5, -25⟩ false).1
      = ⟨20, 5, 20⟩ := by
  have hd : ((⟨0, 5, -25⟩ : Vec3) + headOffset).distanceTo ⟨0, 5, -25⟩ < 3.5 := by
    rw [Vec3.distance_eval _ _ 1.5 (by norm_num) (by norm_num [headOffset])]
    norm_num
  simp only [charTeleStepPaired]
  rw [if_neg (by simp), if_pos hd]

/-- Claim C10: in the paired mode the teleporting character takes only the
x and z coordinates of the target endpoint; its own y coordinate is kept
unchanged by the relocation, in both directions of travel. -/
theorem C10_teleport_keeps_y (enP exP : Vec3) (t : ℝ) (pos : Vec3) :
    ((pos + headOffset).distanceTo enP < t →
      (charTeleStepPaired enP exP t pos false).1.y = pos.y
      ∧ (charTeleStepPaired enP exP t pos false).1.x = exP.x
      ∧ (charTeleStepPaired enP exP t pos false).1.z = exP.z)
    ∧ (¬ (pos + headOffset).distanceTo enP < t →
        (pos + headOffset).distanceTo exP < t →
      (charTeleStepPaired enP exP t pos false).1.y = pos.y
      ∧ (charTeleStepPaired enP exP t pos false).1.x = enP.x
      ∧ (charTeleStepPaired enP exP t pos false).1.z = enP.z) := by
  constructor
  · intro h
    simp only [charTeleStepPaired]
    rw [if_neg (by simp), if_pos h]
    exact ⟨rfl, rfl, rfl⟩
  · intro h1 h2
    simp only [charTeleStepPaired]
    rw [if_neg (by simp), if_neg h1, if_pos h2]
    exact ⟨rfl, rfl, rfl⟩

/-- Witness for C10: a concrete paired-mode teleport keeps the character
height 4 while taking the exit coordinates 7 and 9. -/
theorem C10_teleport_keeps_y_check :
    (charTeleStepPaired ⟨0, 5, -25⟩ ⟨7, 5, 9⟩ 3.5 ⟨0, 4, -25⟩ false).1.y = 4
    ∧ (charTeleStepPaired ⟨0, 5, -25⟩ ⟨7, 5, 9⟩ 3.5 ⟨0, 4, -25⟩ false).1.x = 7
    ∧ (charTeleStepPaired ⟨0, 5, -25⟩ ⟨7, 5, 9⟩ 3.5 ⟨0, 4, -25⟩ false).1.z = 9 := by
  have h := (C10_teleport_keeps_y ⟨0, 5, -25⟩ ⟨7, 5, 9⟩ 3.5 ⟨0, 4, -25⟩).1
    (by rw [Vec3.distance_eval _ _ 0.5 (by norm_num) (by norm_num [headOffset])]; norm_num)
  exact h

/-- Claim C4 (amended): the infinity-mode boundary is a snap, not a
modulo wrap: a coordinate beyond plus half-world is set to exactly minus
half-world (discarding the overshoot), one beyond minus half-world to
exactly plus half-world, coordinates within the band are unchanged, and
the vertical coordinate is never wrapped. -/
theorem C4_wrap_snap (half x0 : ℝ) (v : Vec3) :
    (x0 > half → wrapCoord half x0 = -half)
    ∧ (¬ x0 > half → x0 < -half → wrapCoord half x0 = half)
    ∧ (¬ x0 > half → ¬ x0 < -half → wrapCoord half x0 = x0)
    ∧ (wrapXZ half v).y = v.y
    ∧ (wrapXZ half v).x = wrapCoord half v.x
    ∧ (wrapXZ half v).z = wrapCoord half v.z := by
  refine ⟨?_, ?_, ?_, rfl, rfl, rfl⟩
  · intro h
    simp only [wrapCoord]
    rw [if_pos h, if_neg (lt_irrefl (-half))]
  · intro h1 h2
    simp only [wrapCoord]
    rw [if_neg h1, if_pos h2]
  · intro h1 h2
    simp only [wrapCoord]
    rw [if_neg h1, if_neg h2]

/-- Witness for C4: half-world 5 sends the coordinate 5.5 to -5, keeps 3
in place, and leaves the height of a wrapped position unchanged. -/
theorem C4_wrap_snap_check :
    wrapCoord 5 5.5 = -5
    ∧ wrapCoord 5 3 = 3
    ∧ (wrapXZ 5 ⟨5.5, 7, -9⟩).y = 7 := by
  refine ⟨?_, ?_, ?_⟩
  · exact (C4_wrap_snap 5 5.5 ⟨0, 0, 0⟩).1 (by norm_num)
  · exact (C4_wrap_snap 5 3 ⟨0, 0, 0⟩).2.2.1 (by norm_num) (by norm_num)
  · exact (C4_wrap_snap 5 0 ⟨5.5, 7, -9⟩).2.2.2.1

/-- Counterexample to C4 as stated: a coordinate at half-world 5 plus
epsilon 0.5 is snapped to -5, not to the modulo image -4.5, so the
epsilon is discarded by the wrap. -/
theorem C4_cex :
    wrapCoord 5 (5 + 0.5) = -5 ∧ (-5 : ℝ) ≠ -5 + 0.5 := by
  constructor
  · simp only [wrapCoord]
    rw [if_pos (show (5 : ℝ) + 0.5 > 5 by norm_num)]
    rw [if_neg (show ¬(-(5 : ℝ) < -5) by norm_num)]
  · norm_num

/-- The resolver leaves a pair with coincident centers entirely
unchanged: the zero separation vector normalizes to zero, the positions
gain the zero vector, and the impulse branch does not fire. -/
theorem resolveTwo_coincident (k : ℝ) (o1 o2 : Obj) (h : o1.pos = o2.pos) :
    resolveTwo k o1 o2 = (o1, o2) := by
  have hw : o1.pos - o2.pos = ⟨0, 0, 0⟩ := (Vec3.sub_eq_zero_iff _ _).mpr h
  have hl : (o1.pos - o2.pos).length = 0 := by
    rw [hw]
    exact Vec3.length_eval _ 0 le_rfl (by norm_num)
  have hn : (o1.pos - o2.pos).normalizeTHREE = ⟨0, 0, 0⟩ := by
    unfold Vec3.normalizeTHREE
    rw [if_pos hl, hw]
  simp only [resolveTwo, hl, hn]
  by_cases hrs : (0 : ℝ) < o1.radius + o2.radius
  · rw [if_pos hrs]
    rw [if_neg (by simp [Vec3.dot])]
    simp only [Prod.mk.injEq]
    constructor
    · have : o1.pos + ((o1.radius + o2.radius - 0) * 0.5) • (⟨0, 0, 0⟩ : Vec3) = o1.pos := by
        ext <;> simp
      rw [this]
    · have : o2.pos - ((o1.radius + o2.radius - 0) * 0.5) • (⟨0, 0, 0⟩ : Vec3) = o2.pos := by
        ext <;> simp
      rw [this]
  · rw [if_neg hrs]

/-- Claim C5 (amended): for exactly coincident projectile centers the
separation vector normalizes to the zero vector (the THREE divide-by-one
guard), so the resolver performs no division by zero and leaves both
projectiles unchanged; no fixed fallback separation axis is applied and
the pair stays coincident. -/
theorem C5_coincident_no_nan (k : ℝ) (o1 o2 : Obj) (h : o1.pos = o2.pos) :
    resolveTwo k o1 o2 = (o1, o2)
    ∧ (o1.pos - o2.pos).normalizeTHREE = ⟨0, 0, 0⟩
    ∧ (resolveTwo k o1 o2).1.pos.distanceTo ((resolveTwo k o1 o2).2.pos) = 0 := by
  have hr := resolveTwo_coincident k o1 o2 h
  have hw : o1.pos - o2.pos = ⟨0, 0, 0⟩ := (Vec3.sub_eq_zero_iff _ _).mpr h
  have hl : (o1.pos - o2.pos).length = 0 := by
    rw [hw]
    exact Vec3.length_eval _ 0 le_rfl (by norm_num)
  refine ⟨hr, ?_, ?_⟩
  · unfold Vec3.normalizeTHREE
    rw [if_pos hl, hw]
  · rw [hr]
    exact hl

/-- Witness for C5: a concrete coincident pair of unit projectiles stays
untouched and at distance zero, below the radii sum two. -/
theorem C5_coincident_no_nan_check :
    resolveTwo 1.8 (⟨⟨0, 1, 0⟩, ⟨0, 0, 0⟩, 1, true⟩ : Obj) ⟨⟨0, 1, 0⟩, ⟨2, 0, 0⟩, 1, true⟩
      = (⟨⟨0, 1, 0⟩, ⟨0, 0, 0⟩, 1, true⟩, ⟨⟨0, 1, 0⟩, ⟨2, 0, 0⟩, 1, true⟩)
    ∧ ((⟨0, 1, 0⟩ : Vec3) - ⟨0, 1, 0⟩).normalizeTHREE = ⟨0, 0, 0⟩ := by
  have h := C5_coincident_no_nan 1.8 ⟨⟨0, 1, 0⟩, ⟨0, 0, 0⟩, 1, true⟩
    ⟨⟨0, 1, 0⟩, ⟨2, 0, 0⟩, 1, true⟩ rfl
  exact ⟨h.1, h.2.1⟩

/-- Counterexample to C5 as stated: a coincident pair of unit projectiles
is left exactly in place by the resolver, still at distance 0 below the
radii sum 2, so no fixed fallback separation axis is ever applied. -/
theorem C5_cex :
    resolveTwo 1.8 (⟨⟨3, 2, 1⟩, ⟨0, 0, 0⟩, 1, false⟩ : Obj) ⟨⟨3, 2, 1⟩, ⟨0, 0, 0⟩, 1, false⟩
      = (⟨⟨3, 2, 1⟩, ⟨0, 0, 0⟩, 1, false⟩, ⟨⟨3, 2, 1⟩, ⟨0, 0, 0⟩, 1, false⟩)
    ∧ (⟨3, 2, 1⟩ : Vec3).distanceTo ⟨3, 2, 1⟩ = 0
    ∧ (0 : ℝ) < 1 + 1 := by
  refine ⟨resolveTwo_coincident 1.8 _ _ rfl, ?_, by norm_num⟩
  exact Vec3.distance_eval _ _ 0 le_rfl (by norm_num)

/-- Claim C6: each tick the integrator adds the gravity increment to the
velocity exactly when the projectile lowest point (center height minus
radius) is strictly above the ground level, and then adds the resulting
velocity to the position, in that order. -/
theorem C6_integration_order (ground : ℝ) (grav : Vec3) (o : Obj) :
    (projIntegrate ground grav o).pos = o.pos + (projIntegrate ground grav o).vel
    ∧ (o.pos.y - o.radius > ground →
        (projIntegrate ground grav o).vel = o.vel + grav)
    ∧ (o.pos.y - o.radius ≤ ground →
        (projIntegrate ground grav o).vel = o.vel) := by
  refine ⟨rfl, ?_, ?_⟩
  · intro h
    simp only [projIntegrate]
    rw [if_pos (by linarith)]
  · intro h
    simp only [projIntegrate]
    rw [if_neg (by intro hc; linarith)]

/-- Witness for C6: a unit projectile at height 5 above ground 0 first
gains the gravity increment, then moves by the updated velocity. -/
theorem C6_integration_order_check :
    (projIntegrate 0 gravityVec ⟨⟨0, 5, 0⟩, ⟨1, 0, 0⟩, 1, true⟩).vel
      = ⟨1, 0, 0⟩ + gravityVec
    ∧ (projIntegrate 0 gravityVec ⟨⟨0, 5, 0⟩, ⟨1, 0, 0⟩, 1, true⟩).pos
      = ⟨0, 5, 0⟩ + (projIntegrate 0 gravityVec ⟨⟨0, 5, 0⟩, ⟨1, 0, 0⟩, 1, true⟩).vel := by
  have h := C6_integration_order 0 gravityVec ⟨⟨0, 5, 0⟩, ⟨1, 0, 0⟩, 1, true⟩
  exact ⟨h.2.1 (by norm_num), h.1⟩

/-- Claim C7 (amended): when a projectile lowest point drops below ground
level the step clamps its height to ground plus radius and reflects and
damps the vertical velocity by -0.3 with a snap to exactly zero below the
0.05 floor; horizontal damping by 0.8 is applied only by the paired-mode
clause of part_001 — the portals-mode clause of UniverseCanvas.tsx leaves
the horizontal velocity unchanged.  Consequently a snapped projectile
rests with vertical velocity zero (below the snap threshold) at height
exactly ground plus radius. -/
theorem C7_ground_contact (ground : ℝ) (o : Obj)
    (hb : o.pos.y < ground + o.radius) :
    ((groundContactPortals ground o).pos.y = ground + o.radius
      ∧ (groundContactPortals ground o).vel.x = o.vel.x
      ∧ (groundContactPortals ground o).vel.z = o.vel.z)
    ∧ ((groundContactPaired ground o).pos.y = ground + o.radius
      ∧ (groundContactPaired ground o).vel.x = o.vel.x * 0.8
      ∧ (groundContactPaired ground o).vel.z = o.vel.z * 0.8)
    ∧ (|o.vel.y * (-0.3)| < 0.05 →
        (groundContactPortals ground o).vel.y = 0
        ∧ (groundContactPaired ground o).vel.y = 0)
    ∧ (¬ |o.vel.y * (-0.3)| < 0.05 →
        (groundContactPortals ground o).vel.y = o.vel.y * (-0.3)
        ∧ (groundContactPaired ground o).vel.y = o.vel.y * (-0.3)) := by
  refine ⟨?_, ?_, ?_, ?_⟩
  · simp only [groundContactPortals]
    rw [if_pos hb]
    split_ifs <;> exact ⟨rfl, rfl, rfl⟩
  · simp only [groundContactPaired]
    rw [if_pos hb]
    split_ifs <;> exact ⟨rfl, rfl, rfl⟩
  · intro hs
    constructor
    · simp only [groundContactPortals]
      rw [if_pos hb, if_pos hs]
    · simp only [groundContactPaired]
      rw [if_pos hb, if_pos hs]
  · intro hs
    constructor
    · simp only [groundContactPortals]
      rw [if_pos hb, if_neg hs]
    · simp only [groundContactPaired]
      rw [if_pos hb, if_neg hs]

/-- Witness for C7: a unit projectile sunk to height 0.5 with velocity
(1, -0.01, 2) is clamped to height 1 and its tiny vertical bounce snaps
to zero; the portals clause keeps the horizontal speed (1, 2) while the
paired clause damps it to (0.8, 1.6). -/
theorem C7_ground_contact_check :
    (groundContactPortals 0 ⟨⟨0, 0.5, 0⟩, ⟨1, -0.01, 2⟩, 1, true⟩).pos.y = 1
    ∧ (groundContactPortals 0 ⟨⟨0, 0.5, 0⟩, ⟨1, -0.01, 2⟩, 1, true⟩).vel.x = 1
    ∧ (groundContactPortals 0 ⟨⟨0, 0.5, 0⟩, ⟨1, -0.01, 2⟩, 1, true⟩).vel.y = 0
    ∧ (groundContactPaired 0 ⟨⟨0, 0.5, 0⟩, ⟨1, -0.01, 2⟩, 1, true⟩).vel.x = 1 * 0.8
    ∧ (groundContactPaired 0 ⟨⟨0, 0.5, 0⟩, ⟨1, -0.01, 2⟩, 1, true⟩).vel.y = 0 := by
  have h := C7_ground_contact 0 ⟨⟨0, 0.5, 0⟩, ⟨1, -0.01, 2⟩, 1, true⟩ (by norm_num)
  have hs := h.2.2.1 (by rw [abs_lt]; constructor <;> norm_num)
  refine ⟨?_, h.1.2.1, hs.1, h.2.1.2.1, hs.2⟩
  rw [h.1.1]
  norm_num

/-- Counterexample to C7 as stated: the portals-mode ground clause fires
(the height is clamped from 0.5 to 1) yet the horizontal velocity
component 1 survives entirely undamped, contradicting the claimed
horizontal damping. -/
theorem C7_cex :
    (groundContactPortals 0 ⟨⟨0, 0.5, 0⟩, ⟨1, -0.2, 0⟩, 1, false⟩).pos.y = 1
    ∧ (groundContactPortals 0 ⟨⟨0, 0.5, 0⟩, ⟨1, -0.2, 0⟩, 1, false⟩).vel.x = 1 := by
  constructor
  · simp only [groundContactPortals]
    rw [if_pos (show (0.5 : ℝ) < 0 + 1 by norm_num)]
    norm_num
  · simp only [groundContactPortals]
    rw [if_pos (show (0.5 : ℝ) < 0 + 1 by norm_num)]

/-- Claim C8 (amended): two unit projectiles approaching head-on along x
at combined closing speed 2 from spawn distance 3 reach distance 1 after
one integration tick (the first tick below 2); the resolution then
separates the centers back to exactly distance 2 and reverses the sign of
both x velocities — exactly elastically (to -1 and 1) under the impulse
multiplier 1 of the paired-wormhole mode, and amplified (to -2.6 and 2.6)
under the multiplier 1.8 shared by the portals and infinity modes. -/
theorem C8_headon_scenario :
    Vec3.distanceTo ⟨0, 1, 0⟩ ⟨3, 1, 0⟩ = 3
    ∧ projIntegrate 0 gravityVec ⟨⟨0, 1, 0⟩, ⟨1, 0, 0⟩, 1, true⟩
        = ⟨⟨1, 1, 0⟩, ⟨1, 0, 0⟩, 1, true⟩
    ∧ projIntegrate 0 gravityVec ⟨⟨3, 1, 0⟩, ⟨-1, 0, 0⟩, 1, true⟩
        = ⟨⟨2, 1, 0⟩, ⟨-1, 0, 0⟩, 1, true⟩
    ∧ Vec3.distanceTo ⟨1, 1, 0⟩ ⟨2, 1, 0⟩ = 1
    ∧ impulseFactor Mode.myWormholes = 1
    ∧ impulseFactor Mode.portals = 1.8
    ∧ impulseFactor Mode.infinity = 1.8
    ∧ resolvePass (impulseFactor Mode.myWormholes)
        [⟨⟨1, 1, 0⟩, ⟨1, 0, 0⟩, 1, true⟩, ⟨⟨2, 1, 0⟩, ⟨-1, 0, 0⟩, 1, true⟩]
        = [⟨⟨0.5, 1, 0⟩, ⟨-1, 0, 0⟩, 1, true⟩, ⟨⟨2.5, 1, 0⟩, ⟨1, 0, 0⟩, 1, true⟩]
    ∧ resolvePass (impulseFactor Mode.portals)
        [⟨⟨1, 1, 0⟩, ⟨1, 0, 0⟩, 1, true⟩, ⟨⟨2, 1, 0⟩, ⟨-1, 0, 0⟩, 1, true⟩]
        = [⟨⟨0.5, 1, 0⟩, ⟨-2.6, 0, 0⟩, 1, true⟩, ⟨⟨2.5, 1, 0⟩, ⟨2.6, 0, 0⟩, 1, true⟩]
    ∧ Vec3.distanceTo ⟨0.5, 1, 0⟩ ⟨2.5, 1, 0⟩ = 2 := by
  refine ⟨Vec3.distance_eval _ _ 3 (by norm_num) (by norm_num), ?_, ?_,
    Vec3.distance_eval _ _ 1 (by norm_num) (by norm_num), rfl, rfl, rfl, ?_, ?_,
    Vec3.distance_eval _ _ 2 (by norm_num) (by norm_num)⟩
  · simp only [projIntegrate]
    rw [if_neg (by norm_num)]
    simp only [Obj.mk.injEq, and_true, true_and]
    ext <;> norm_num
  · simp only [projIntegrate]
    rw [if_neg (by norm_num)]
    simp only [Obj.mk.injEq, and_true, true_and]
    ext <;> norm_num
  · have e := resolveTwo_xaxis_vel 1 1 2 1 0 1 1 1 (-1) true true (by norm_num)
      (by norm_num) (by norm_num)
    rw [show impulseFactor Mode.myWormholes = (1 : ℝ) from rfl, resolvePass_two, e]
    simp only [List.cons.injEq, Obj.mk.injEq, Vec3.mk.injEq, and_true, true_and]
    norm_num
  · have e := resolveTwo_xaxis_vel 1.8 1 2 1 0 1 1 1 (-1) true true (by norm_num)
      (by norm_num) (by norm_num)
    rw [show impulseFactor Mode.portals = (1.8 : ℝ) from rfl, resolvePass_two, e]
    simp only [List.cons.injEq, Obj.mk.injEq, Vec3.mk.injEq, and_true, true_and]
    norm_num

/-- Counterexample to C8 as stated: the impulse multiplier 1.8 is not
exclusive to the infinity mode — the portals mode shares it, and there
the head-on scenario velocity becomes -2.6 instead of the elastic -1. -/
theorem C8_cex :
    impulseFactor Mode.portals = 1.8
    ∧ Mode.portals ≠ Mode.infinity
    ∧ ((resolvePass (impulseFactor Mode.portals)
        [(⟨⟨1, 1, 0⟩, ⟨1, 0, 0⟩, 1, true⟩ : Obj),
          ⟨⟨2, 1, 0⟩, ⟨-1, 0, 0⟩, 1, true⟩]).getD 0 default).vel.x = -2.6
    ∧ (-2.6 : ℝ) ≠ -1 := by
  refine ⟨rfl, fun h => Mode.noConfusion h, ?_, by norm_num⟩
  have e := resolveTwo_xaxis_vel 1.8 1 2 1 0 1 1 1 (-1) true true (by norm_num)
    (by norm_num) (by norm_num)
  rw [show impulseFactor Mode.portals = (1.8 : ℝ) from rfl, resolvePass_two, e]
  simp only [List.getD, List.getElem?_cons_zero, Option.getD_some]
  norm_num

theorem Vec3.normalizeTHREE_y (v : Vec3) (h : v.y = 0) :
    (v.normalizeTHREE).y = 0 := by
  unfold Vec3.normalizeTHREE
  split_ifs
  · exact h
  · simp [h]

/-- In the portals mode the character movement never changes the vertical
coordinate: the camera direction is flattened before use and the strafe
direction is horizontal. -/
theorem moveChar_portals_y (camDir : Vec3) (keys : Keys) (ms : ℝ) (pos : Vec3) :
    (moveChar false camDir keys ms pos).y = pos.y := by
  have hdy : (Vec3.normalizeTHREE ⟨camDir.x, 0, camDir.z⟩).y = 0 :=
    Vec3.normalizeTHREE_y _ rfl
  have hsy : ((Vec3.cross ⟨0, 1, 0⟩
      (Vec3.normalizeTHREE ⟨camDir.x, 0, camDir.z⟩)).normalizeTHREE).y = 0 := by
    apply Vec3.normalizeTHREE_y
    simp [Vec3.cross]
  simp only [moveChar, Bool.false_and, Bool.false_eq_true, if_false]
  split_ifs <;> simp [hdy, hsy]

/-- Claim C9 (amended): in portal mode the character position is never
clamped — movement is a pure translation whose vertical component is zero,
so the character vertical coordinate passes through unchanged (and can sit
below any view floor); the minimum clamp of the source applies to the
camera height, which is kept at least 1 and set to exactly 1 whenever the
unclamped camera height falls below 1. -/
theorem C9_camera_clamp_not_character (camDir : Vec3) (keys : Keys) (ms : ℝ)
    (pos : Vec3) (distance rotX : ℝ) :
    (moveChar false camDir keys ms pos).y = pos.y
    ∧ (∃ d : Vec3, moveChar false camDir keys ms pos = pos + d ∧ d.y = 0)
    ∧ 1 ≤ cameraYPortals pos distance rotX
    ∧ (pos.y + 1.5 + distance * Real.sin rotX < 1 →
        cameraYPortals pos distance rotX = 1) := by
  refine ⟨moveChar_portals_y camDir keys ms pos, ?_, le_max_right _ 1, ?_⟩
  · refine ⟨moveChar false camDir keys ms pos - pos, ?_, ?_⟩
    · ext <;> simp
    · rw [Vec3.sub_y, moveChar_portals_y camDir keys ms pos, sub_self]
  · intro h
    exact max_eq_right (le_of_lt h)

/-- Witness for C9: with the character at height -10 the camera height is
clamped to exactly 1, while a forward movement step leaves the character
height at -10. -/
theorem C9_camera_clamp_not_character_check :
    cameraYPortals ⟨0, -10, 0⟩ 0 0 = 1
    ∧ (moveChar false ⟨0, 0, -1⟩ ⟨true, false, false, false, false, false⟩ 0.2
        ⟨0, -10, 0⟩).y = -10 := by
  have h := C9_camera_clamp_not_character ⟨0, 0, -1⟩
    ⟨true, false, false, false, false, false⟩ 0.2 ⟨0, -10, 0⟩ 0 0
  exact ⟨h.2.2.2 (by norm_num [Real.sin_zero]), h.1⟩

/-- Counterexample to C9 as stated: a portals-mode movement step keeps the
character at height -100, far below the camera floor 1, so the character
vertical coordinate is not clamped to any view-acceptable minimum. -/
theorem C9_cex :
    (moveChar false ⟨0, 0, -1⟩ ⟨true, false, false, false, false, false⟩ 0.2
        ⟨0, -100, 5⟩).y = -100
    ∧ (-100 : ℝ) < 1 :=
  ⟨moveChar_portals_y _ _ _ _, by norm_num⟩

end

end StrangeUniverse
